import Mathlib

/-!
Verification of the rusty_pinger session-statistics engine.

Shallow embedding of `src/main.rs` (the single source file of the
repository).  Modelling choices, stated once here:

* Latency samples are `f32` millisecond values in the source; they are
  modelled as exact rationals (`ℚ`).  The two-decimal rounding that the
  source performs with `f32::round` (round half away from zero) is modelled
  exactly on `ℚ` by `roundAway`/`roundTwo`.
* `u64` counters are modelled as `ℕ`.  The one place the source subtracts
  (`self.sent - self.received`, a `u64` subtraction that panics on
  underflow in debug builds) is modelled with truncated `ℕ` subtraction
  together with the explicit predicate `calcUnderflows`, and the loop
  invariant proved below shows the underflow case is unreachable.
* `DateTime<Utc>` timestamps (wall-clock time) are modelled as an opaque
  `String` threaded into `calculate` as a `now` parameter; no claim
  constrains timestamp values.
* The `HashMap<String, u64>` of latency buckets is modelled as a total
  function `String → ℕ`.  The source map always holds exactly the twelve
  bucket keys (created by `PingStats::new`, reset and re-incremented by
  `calculate`, and every read either targets one of the twelve keys or
  uses a default of 0), so the total-function view is observationally
  equivalent.
* Files are modelled at the parsed level: a JSON destination is
  `Option (List PingStats)` (`none` = file absent), a CSV destination is
  `Option (List (List String))` (rows of rendered fields).
-/

/-- `f32::MAX`, the initial accumulator of the source's min-fold
(`times.iter().fold(f32::MAX, |a, &b| a.min(b))`). -/
def f32MAX : ℚ := 2 ^ 128 - 2 ^ 104

/-- `f32::MIN`, the initial accumulator of the source's max-fold. -/
def f32MIN : ℚ := -(2 ^ 128 - 2 ^ 104)

/-- `f32::round`: round half away from zero (exact on `ℚ`). -/
def roundAway (q : ℚ) : ℤ :=
  if 0 ≤ q then ⌊q + 1 / 2⌋ else -⌊-q + 1 / 2⌋

/-- The source's two-decimal rounding `(x * 100.0).round() / 100.0`. -/
def roundTwo (q : ℚ) : ℚ := (roundAway (q * 100) : ℚ) / 100

/-- `time as u64` on a non-negative latency: truncation toward zero
(saturating at 0 for negative inputs, as Rust `as` conversion does). -/
def msOf (t : ℚ) : ℕ := (⌊t⌋).toNat

/-- The bucket names, in the order declared by `PingStats::new` and by the
CSV header of `save_results_csv`. -/
def bucketNames : List String :=
  ["0-50ms", "50-100ms", "100-150ms", "150-200ms", "200-250ms",
   "250-300ms", "300-350ms", "350-400ms", "400-450ms", "450-500ms",
   "500-999ms", ">1000ms"]

/-- The bucket chosen by the `match time as u64` arms of
`PingStats::calculate`, as a function of the truncated value. -/
def natBucket (m : ℕ) : String :=
  if m ≤ 49 then "0-50ms"
  else if m ≤ 99 then "50-100ms"
  else if m ≤ 149 then "100-150ms"
  else if m ≤ 199 then "150-200ms"
  else if m ≤ 249 then "200-250ms"
  else if m ≤ 299 then "250-300ms"
  else if m ≤ 349 then "300-350ms"
  else if m ≤ 399 then "350-400ms"
  else if m ≤ 449 then "400-450ms"
  else if m ≤ 499 then "450-500ms"
  else if m ≤ 999 then "500-999ms"
  else ">1000ms"

/-- Classification of one latency sample (`match time as u64 { ... }`). -/
def bucketOf (t : ℚ) : String := natBucket (msOf t)

/-- The integer-millisecond range each declared bucket covers (closed
integer ranges, last bucket open-ended), read off the same match arms. -/
def inBucket (b : String) (m : ℕ) : Bool :=
  if b = "0-50ms" then m ≤ 49
  else if b = "50-100ms" then 50 ≤ m && m ≤ 99
  else if b = "100-150ms" then 100 ≤ m && m ≤ 149
  else if b = "150-200ms" then 150 ≤ m && m ≤ 199
  else if b = "200-250ms" then 200 ≤ m && m ≤ 249
  else if b = "250-300ms" then 250 ≤ m && m ≤ 299
  else if b = "300-350ms" then 300 ≤ m && m ≤ 349
  else if b = "350-400ms" then 350 ≤ m && m ≤ 399
  else if b = "400-450ms" then 400 ≤ m && m ≤ 449
  else if b = "450-500ms" then 450 ≤ m && m ≤ 499
  else if b = "500-999ms" then 500 ≤ m && m ≤ 999
  else if b = ">1000ms" then 1000 ≤ m
  else false

/-- The `PingStats` struct of the source. -/
structure PingStats where
  target : String
  timestamp : String
  sent : ℕ
  received : ℕ
  loss_percent : ℚ
  min : Option ℚ
  max : Option ℚ
  avg : Option ℚ
  latency_buckets : String → ℕ

/-- `PingStats::new`: empty stats object for a session (the source
initializes the map with the twelve bucket keys at 0; in the
total-function model this is the zero function). -/
def PingStats.new (target now : String) : PingStats :=
  { target := target
    timestamp := now
    sent := 0
    received := 0
    loss_percent := 0
    min := none
    max := none
    avg := none
    latency_buckets := fun _ => 0 }

/-- The bucket-counting fold of `PingStats::calculate`: reset every count
to zero, then classify and increment for each sample. -/
def rebuildBuckets (times : List ℚ) : String → ℕ :=
  times.foldl (fun m t => Function.update m (bucketOf t) (m (bucketOf t) + 1))
    (fun _ => 0)

/-- `PingStats::calculate`: recompute `received`, `timestamp`,
`loss_percent` (only when `sent > 0`; otherwise the field keeps its prior
value, since the source's assignment sits inside `if self.sent > 0`),
min/max/avg (two-decimal rounded; absent on an empty sample list), and the
histogram, from the full sample list. -/
def calculate (s : PingStats) (now : String) (times : List ℚ) : PingStats :=
  let received := times.length
  let loss :=
    if 0 < s.sent then 100 * (((s.sent - received : ℕ) : ℚ)) / (s.sent : ℚ)
    else s.loss_percent
  let mn : Option ℚ :=
    if times.isEmpty then none else some (roundTwo (times.foldl min f32MAX))
  let mx : Option ℚ :=
    if times.isEmpty then none else some (roundTwo (times.foldl max f32MIN))
  let av : Option ℚ :=
    if times.isEmpty then none
    else some (roundTwo ((times.foldl (· + ·) 0) / (received : ℚ)))
  { s with
      received := received
      timestamp := now
      loss_percent := loss
      min := mn
      max := mx
      avg := av
      latency_buckets := rebuildBuckets times }

/-- The `u64` subtraction `self.sent - self.received` in `calculate`
underflows (debug-build panic) exactly when the sample list is longer than
the `sent` counter. -/
def calcUnderflows (sent : ℕ) (times : List ℚ) : Prop :=
  sent < times.length

/-- `save_results` (Encoding A, JSON): read the existing list of entries
(`[]` when the file is absent), push the new snapshot, rewrite the whole
list. -/
def save_results (stats : PingStats) (file : Option (List PingStats)) :
    List PingStats :=
  let entries := match file with
    | some l => l
    | none => []
  entries ++ [stats]

/-- Iterated Encoding A appends: the file contents after appending each
snapshot of `snaps` in order, starting from file state `file`. -/
def runAppends (file : Option (List PingStats)) (snaps : List PingStats) :
    Option (List PingStats) :=
  snaps.foldl (fun f s => some (save_results s f)) file

/-! ## Histogram helper lemmas -/

theorem inB0 (m : ℕ) : inBucket "0-50ms" m = true ↔ m ≤ 49 := by
  simp [inBucket]

theorem inB1 (m : ℕ) : inBucket "50-100ms" m = true ↔ 50 ≤ m ∧ m ≤ 99 := by
  simp [inBucket]

theorem inB2 (m : ℕ) : inBucket "100-150ms" m = true ↔ 100 ≤ m ∧ m ≤ 149 := by
  simp [inBucket]

theorem inB3 (m : ℕ) : inBucket "150-200ms" m = true ↔ 150 ≤ m ∧ m ≤ 199 := by
  simp [inBucket]

theorem inB4 (m : ℕ) : inBucket "200-250ms" m = true ↔ 200 ≤ m ∧ m ≤ 249 := by
  simp [inBucket]

theorem inB5 (m : ℕ) : inBucket "250-300ms" m = true ↔ 250 ≤ m ∧ m ≤ 299 := by
  simp [inBucket]

theorem inB6 (m : ℕ) : inBucket "300-350ms" m = true ↔ 300 ≤ m ∧ m ≤ 349 := by
  simp [inBucket]

theorem inB7 (m : ℕ) : inBucket "350-400ms" m = true ↔ 350 ≤ m ∧ m ≤ 399 := by
  simp [inBucket]

theorem inB8 (m : ℕ) : inBucket "400-450ms" m = true ↔ 400 ≤ m ∧ m ≤ 449 := by
  simp [inBucket]

theorem inB9 (m : ℕ) : inBucket "450-500ms" m = true ↔ 450 ≤ m ∧ m ≤ 499 := by
  simp [inBucket]

theorem inB10 (m : ℕ) : inBucket "500-999ms" m = true ↔ 500 ≤ m ∧ m ≤ 999 := by
  simp [inBucket]

theorem inB11 (m : ℕ) : inBucket ">1000ms" m = true ↔ 1000 ≤ m := by
  simp [inBucket]

/-- Exhaustive interval case analysis for `natBucket`. -/
theorem natBucket_cases (m : ℕ) :
    (m ≤ 49 ∧ natBucket m = "0-50ms") ∨
    (50 ≤ m ∧ m ≤ 99 ∧ natBucket m = "50-100ms") ∨
    (100 ≤ m ∧ m ≤ 149 ∧ natBucket m = "100-150ms") ∨
    (150 ≤ m ∧ m ≤ 199 ∧ natBucket m = "150-200ms") ∨
    (200 ≤ m ∧ m ≤ 249 ∧ natBucket m = "200-250ms") ∨
    (250 ≤ m ∧ m ≤ 299 ∧ natBucket m = "250-300ms") ∨
    (300 ≤ m ∧ m ≤ 349 ∧ natBucket m = "300-350ms") ∨
    (350 ≤ m ∧ m ≤ 399 ∧ natBucket m = "350-400ms") ∨
    (400 ≤ m ∧ m ≤ 449 ∧ natBucket m = "400-450ms") ∨
    (450 ≤ m ∧ m ≤ 499 ∧ natBucket m = "450-500ms") ∨
    (500 ≤ m ∧ m ≤ 999 ∧ natBucket m = "500-999ms") ∨
    (1000 ≤ m ∧ natBucket m = ">1000ms") := by
  by_cases h1 : m ≤ 49
  · exact Or.inl ⟨h1, by unfold natBucket; rw [if_pos h1]⟩
  by_cases h2 : m ≤ 99
  · exact Or.inr (Or.inl ⟨by omega, h2, by
      unfold natBucket; rw [if_neg h1, if_pos h2]⟩)
  by_cases h3 : m ≤ 149
  · exact Or.inr (Or.inr (Or.inl ⟨by omega, h3, by
      unfold natBucket; rw [if_neg h1, if_neg h2, if_pos h3]⟩))
  by_cases h4 : m ≤ 199
  · exact Or.inr (Or.inr (Or.inr (Or.inl ⟨by omega, h4, by
      unfold natBucket; rw [if_neg h1, if_neg h2, if_neg h3, if_pos h4]⟩)))
  by_cases h5 : m ≤ 249
  · exact Or.inr (Or.inr (Or.inr (Or.inr (Or.inl ⟨by omega, h5, by
      unfold natBucket; rw [if_neg h1, if_neg h2, if_neg h3, if_neg h4, if_pos h5]⟩))))
  by_cases h6 : m ≤ 299
  · exact Or.inr (Or.inr (Or.inr (Or.inr (Or.inr (Or.inl ⟨by omega, h6, by
      unfold natBucket
      rw [if_neg h1, if_neg h2, if_neg h3, if_neg h4, if_neg h5, if_pos h6]⟩)))))
  by_cases h7 : m ≤ 349
  · exact Or.inr (Or.inr (Or.inr (Or.inr (Or.inr (Or.inr (Or.inl ⟨by omega, h7, by
      unfold natBucket
      rw [if_neg h1, if_neg h2, if_neg h3, if_neg h4, if_neg h5, if_neg h6,
        if_pos h7]⟩))))))
  by_cases h8 : m ≤ 399
  · exact Or.inr (Or.inr (Or.inr (Or.inr (Or.inr (Or.inr (Or.inr (Or.inl ⟨by omega, h8, by
      unfold natBucket
      rw [if_neg h1, if_neg h2, if_neg h3, if_neg h4, if_neg h5, if_neg h6, if_neg h7,
        if_pos h8]⟩)))))))
  by_cases h9 : m ≤ 449
  · exact Or.inr (Or.inr (Or.inr (Or.inr (Or.inr (Or.inr (Or.inr (Or.inr (Or.inl
      ⟨by omega, h9, by
        unfold natBucket
        rw [if_neg h1, if_neg h2, if_neg h3, if_neg h4, if_neg h5, if_neg h6, if_neg h7,
          if_neg h8, if_pos h9]⟩))))))))
  by_cases h10 : m ≤ 499
  · exact Or.inr (Or.inr (Or.inr (Or.inr (Or.inr (Or.inr (Or.inr (Or.inr (Or.inr (Or.inl
      ⟨by omega, h10, by
        unfold natBucket
        rw [if_neg h1, if_neg h2, if_neg h3, if_neg h4, if_neg h5, if_neg h6, if_neg h7,
          if_neg h8, if_neg h9, if_pos h10]⟩)))))))))
  by_cases h11 : m ≤ 999
  · exact Or.inr (Or.inr (Or.inr (Or.inr (Or.inr (Or.inr (Or.inr (Or.inr (Or.inr (Or.inr
      (Or.inl ⟨by omega, h11, by
        unfold natBucket
        rw [if_neg h1, if_neg h2, if_neg h3, if_neg h4, if_neg h5, if_neg h6, if_neg h7,
          if_neg h8, if_neg h9, if_neg h10, if_pos h11]⟩))))))))))
  · exact Or.inr (Or.inr (Or.inr (Or.inr (Or.inr (Or.inr (Or.inr (Or.inr (Or.inr (Or.inr
      (Or.inr ⟨by omega, by
        unfold natBucket
        rw [if_neg h1, if_neg h2, if_neg h3, if_neg h4, if_neg h5, if_neg h6, if_neg h7,
          if_neg h8, if_neg h9, if_neg h10, if_neg h11]⟩))))))))))

/-- Every classified bucket name is one of the declared bucket names. -/
theorem natBucket_mem (m : ℕ) : natBucket m ∈ bucketNames := by
  rcases natBucket_cases m with ⟨_, e⟩ | ⟨_, _, e⟩ | ⟨_, _, e⟩ | ⟨_, _, e⟩ | ⟨_, _, e⟩ |
    ⟨_, _, e⟩ | ⟨_, _, e⟩ | ⟨_, _, e⟩ | ⟨_, _, e⟩ | ⟨_, _, e⟩ | ⟨_, _, e⟩ | ⟨_, e⟩ <;>
      rw [e] <;> simp [bucketNames]

/-- The chosen bucket's range does contain the truncated value. -/
theorem inBucket_natBucket (m : ℕ) : inBucket (natBucket m) m = true := by
  rcases natBucket_cases m with ⟨h, e⟩ | ⟨h, h', e⟩ | ⟨h, h', e⟩ | ⟨h, h', e⟩ | ⟨h, h', e⟩ |
    ⟨h, h', e⟩ | ⟨h, h', e⟩ | ⟨h, h', e⟩ | ⟨h, h', e⟩ | ⟨h, h', e⟩ | ⟨h, h', e⟩ | ⟨h, e⟩ <;>
    rw [e] <;>
    simp only [inB0, inB1, inB2, inB3, inB4, inB5, inB6, inB7, inB8, inB9, inB10, inB11] <;>
    omega

/-- No declared bucket other than the chosen one contains the truncated
value: the ranges are pairwise disjoint. -/
theorem natBucket_unique (m : ℕ) (b : String) (hb : b ∈ bucketNames)
    (h : inBucket b m = true) : b = natBucket m := by
  simp only [bucketNames, List.mem_cons, List.not_mem_nil, or_false] at hb
  rcases hb with rfl | rfl | rfl | rfl | rfl | rfl | rfl | rfl | rfl | rfl | rfl | rfl <;>
    simp only [inB0, inB1, inB2, inB3, inB4, inB5, inB6, inB7, inB8, inB9, inB10, inB11]
      at h <;>
    (rcases natBucket_cases m with ⟨h1, e⟩ | ⟨h1, h2, e⟩ | ⟨h1, h2, e⟩ | ⟨h1, h2, e⟩ |
      ⟨h1, h2, e⟩ | ⟨h1, h2, e⟩ | ⟨h1, h2, e⟩ | ⟨h1, h2, e⟩ | ⟨h1, h2, e⟩ | ⟨h1, h2, e⟩ |
      ⟨h1, h2, e⟩ | ⟨h1, e⟩ <;> rw [e] <;> first | rfl | (exfalso; omega))

theorem sum_map_add (l : List String) (f g : String → ℕ) :
    (l.map (fun x => f x + g x)).sum = (l.map f).sum + (l.map g).sum := by
  induction l with
  | nil => simp
  | cons a l ih => simp [ih]; ring

/-- Summing the indicator of one declared name over the declared names
gives exactly 1. -/
theorem single_hit (x : String) (hx : x ∈ bucketNames) :
    (bucketNames.map (fun b => if x == b then 1 else 0)).sum = 1 := by
  simp only [bucketNames, List.mem_cons, List.not_mem_nil, or_false] at hx
  rcases hx with rfl | rfl | rfl | rfl | rfl | rfl | rfl | rfl | rfl | rfl | rfl | rfl <;> rfl

/-- The bucket-counting fold computes, for each name, the number of samples
classified to that name. -/
theorem rebuild_applied (times : List ℚ) (m0 : String → ℕ) (b : String) :
    (times.foldl (fun m t => Function.update m (bucketOf t) (m (bucketOf t) + 1)) m0) b
      = m0 b + times.countP (fun t => bucketOf t == b) := by
  induction times generalizing m0 with
  | nil => simp
  | cons t ts ih =>
      simp only [List.foldl_cons, List.countP_cons, ih]
      rcases eq_or_ne (bucketOf t) b with rfl | hne
      · simp [Function.update_apply]; omega
      · simp [Function.update_apply, hne, Ne.symm hne]

/-- The per-name counts over the declared names sum to the sample count. -/
theorem sum_counts (times : List ℚ) :
    (bucketNames.map (fun b => times.countP (fun t => bucketOf t == b))).sum
      = times.length := by
  induction times with
  | nil => simp
  | cons t ts ih =>
      simp only [List.countP_cons]
      rw [sum_map_add bucketNames (fun b => ts.countP (fun u => bucketOf u == b))
        (fun b => if bucketOf t == b then 1 else 0), ih,
        single_hit (bucketOf t) (natBucket_mem (msOf t)), List.length_cons]

/-! ## Encoding A (JSON) append lemmas -/

theorem runAppends_some (prev : List PingStats) (snaps : List PingStats) :
    runAppends (some prev) snaps = some (prev ++ snaps) := by
  induction snaps generalizing prev with
  | nil => simp [runAppends]
  | cons s ss ih =>
      simp only [runAppends, List.foldl_cons] at *
      rw [show save_results s (some prev) = prev ++ [s] from rfl, ih]
      simp

/-! ## Claim theorems (first batch) -/

/-- C2: the JSON (Encoding A) append operation creates the destination when
absent, and on an existing destination produces the previously appended
snapshots followed by the new one, in order; iterating appends from any
existing file state yields exactly the old contents followed by all new
snapshots in order, so no previously appended snapshot is ever lost. -/
theorem C2_json_append (stats : PingStats) (prev : List PingStats)
    (snaps : List PingStats) :
    save_results stats none = [stats] ∧
    save_results stats (some prev) = prev ++ [stats] ∧
    runAppends (some prev) snaps = some (prev ++ snaps) ∧
    ∀ x ∈ prev, x ∈ save_results stats (some prev) := by
  refine ⟨rfl, rfl, runAppends_some prev snaps, ?_⟩
  intro x hx
  simp [save_results, hx]

/-- C3: after recomputation, the histogram bucket counts over the declared
bucket names sum to the number of samples; each bucket's count is the
number of samples classified to it, and each sample's classified bucket is
a declared name whose integer-millisecond range (truncated sample value,
last bucket open-ended) contains the sample, no other declared name's
range containing it. -/
theorem C3_histogram_partition (s : PingStats) (now : String) (times : List ℚ)
    (h : ∀ t ∈ times, 0 ≤ t) :
    ((bucketNames.map (calculate s now times).latency_buckets).sum = times.length) ∧
    (∀ b, (calculate s now times).latency_buckets b
        = times.countP (fun t => bucketOf t == b)) ∧
    (∀ t ∈ times, bucketOf t ∈ bucketNames ∧ inBucket (bucketOf t) (msOf t) = true ∧
      ∀ b ∈ bucketNames, inBucket b (msOf t) = true → b = bucketOf t) := by
  have hbuckets : (calculate s now times).latency_buckets = rebuildBuckets times := rfl
  have happ : ∀ b, (calculate s now times).latency_buckets b
      = times.countP (fun t => bucketOf t == b) := by
    intro b
    rw [hbuckets]
    simpa using rebuild_applied times (fun _ => 0) b
  refine ⟨?_, happ, ?_⟩
  · calc (bucketNames.map (calculate s now times).latency_buckets).sum
        = (bucketNames.map (fun b => times.countP (fun t => bucketOf t == b))).sum := by
          congr 1
          exact List.map_congr_left (fun b _ => happ b)
      _ = times.length := sum_counts times
  · intro t _
    exact ⟨natBucket_mem (msOf t), inBucket_natBucket (msOf t),
      fun b hb hin => natBucket_unique (msOf t) b hb hin⟩

/-- Witness for C3 at a concrete sample list. -/
theorem C3_histogram_partition_witness :
    (∀ t ∈ ([21/2, 49/4, 1200] : List ℚ), (0 : ℚ) ≤ t) ∧
    ((bucketNames.map
        (calculate (PingStats.new "h" "t0") "t1" [21/2, 49/4, 1200]).latency_buckets).sum
      = ([21/2, 49/4, 1200] : List ℚ).length) := by
  have h : ∀ t ∈ ([21/2, 49/4, 1200] : List ℚ), (0 : ℚ) ≤ t := by
    intro t ht
    simp only [List.mem_cons, List.not_mem_nil, or_false] at ht
    rcases ht with rfl | rfl | rfl <;> norm_num
  exact ⟨h, (C3_histogram_partition (PingStats.new "h" "t0") "t1" [21/2, 49/4, 1200] h).1⟩

/-- C4 counterexample: `calculate` on a record with `sent = 0` and a prior
`loss_percent` of 50 leaves `loss_percent` at 50, not 0 (the assignment is
guarded by `if self.sent > 0`). -/
theorem C4_counterexample :
    (calculate { PingStats.new "h" "t0" with loss_percent := 50 } "t1" []).loss_percent = 50
      ∧ (50 : ℚ) ≠ 0 := by
  constructor
  · rfl
  · norm_num

/-- C4 (amended): `calculate` on a record whose `sent` counter is 0 leaves
`loss_percent` unchanged at its prior value; in particular it stays 0 for
any record whose prior `loss_percent` is 0, as for every freshly created
record. -/
theorem C4_sent_zero_loss (s : PingStats) (now : String) (times : List ℚ)
    (h : s.sent = 0) :
    (calculate s now times).loss_percent = s.loss_percent := by
  simp [calculate, h]

/-- Witness for C4 (amended) at a concrete record. -/
theorem C4_sent_zero_loss_witness :
    (PingStats.new "h" "t0").sent = 0 ∧
    (calculate (PingStats.new "h" "t0") "t1" [5]).loss_percent
      = (PingStats.new "h" "t0").loss_percent :=
  ⟨rfl, C4_sent_zero_loss (PingStats.new "h" "t0") "t1" [5] rfl⟩

/-- C5: `calculate` with an empty sample list yields absent (`none`)
min/max/avg and an all-zero histogram, for every prior record and hence
for every value of `sent`. -/
theorem C5_empty_samples (s : PingStats) (now : String) :
    (calculate s now []).min = none ∧
    (calculate s now []).max = none ∧
    (calculate s now []).avg = none ∧
    ∀ b, (calculate s now []).latency_buckets b = 0 := by
  refine ⟨rfl, rfl, rfl, fun b => rfl⟩

/-- C6: for `sent > 0` and `received = times.length ≤ sent`, `calculate`
sets `received` to the sample count and `loss_percent` to exactly
`100 * (sent - received) / sent`. -/
theorem C6_loss_formula (s : PingStats) (now : String) (times : List ℚ)
    (h0 : 0 < s.sent) (h1 : times.length ≤ s.sent) :
    (calculate s now times).received = times.length ∧
    (calculate s now times).loss_percent
      = 100 * ((s.sent : ℚ) - (times.length : ℚ)) / (s.sent : ℚ) := by
  refine ⟨rfl, ?_⟩
  show (if 0 < s.sent then 100 * (((s.sent - times.length : ℕ) : ℚ)) / (s.sent : ℚ)
    else s.loss_percent) = _
  rw [if_pos h0, Nat.cast_sub h1]

/-- Witness for C6 at `sent = 4`, two samples. -/
theorem C6_loss_formula_witness :
    0 < ({ PingStats.new "h" "t0" with sent := 4 } : PingStats).sent ∧
    ([1, 2] : List ℚ).length ≤ ({ PingStats.new "h" "t0" with sent := 4 } : PingStats).sent ∧
    (calculate { PingStats.new "h" "t0" with sent := 4 } "t1" [1, 2]).loss_percent
      = 100 * ((4 : ℚ) - (2 : ℚ)) / (4 : ℚ) := by
  refine ⟨by norm_num, by norm_num, ?_⟩
  have := (C6_loss_formula { PingStats.new "h" "t0" with sent := 4 } "t1" [1, 2]
    (by norm_num) (by norm_num)).2
  simpa using this

/-! ## CSV recorder (Encoding B), `save_results_csv` -/

/-- Fixed two-decimal formatting of a (modelled) float value, as Rust's
two-decimal float format specifier renders it:
round the value times 100 to the nearest integer (ties to even, as float
formatting does) and print with exactly two digits after the point. -/
def fmtTwo (q : ℚ) : String :=
  let n : ℤ := (⌊q * 100⌋ : ℤ) +
    (if q * 100 - ⌊q * 100⌋ < 1 / 2 then 0
     else if 1 / 2 < q * 100 - ⌊q * 100⌋ then 1
     else if ⌊q * 100⌋ % 2 = 0 then 0 else 1)
  let sign := if n < 0 then "-" else ""
  let m := n.natAbs
  sign ++ toString (m / 100) ++ "." ++
    (if m % 100 < 10 then "0" ++ toString (m % 100) else toString (m % 100))

/-- Rendering of an optional min/max/avg field:
`map_or("".to_string(), |v| format!("{:.2}", v))`. -/
def optFmtTwo : Option ℚ → String
  | none => ""
  | some v => fmtTwo v

/-- The fixed CSV header row written by `save_results_csv` when the file
does not yet exist. -/
def csvHeader : List String :=
  ["target", "timestamp", "sent", "received", "loss_percent",
   "min", "max", "avg"] ++ bucketNames

/-- The data row written by `save_results_csv`: target, timestamp, the
integer counters via `to_string`, `loss_percent` via `{:.2}`, optional
min/max/avg via `{:.2}` or empty, then one count per bucket in declared
order via `to_string`. -/
def csvRow (stats : PingStats) : List String :=
  [stats.target, stats.timestamp, toString stats.sent, toString stats.received,
   fmtTwo stats.loss_percent, optFmtTwo stats.min, optFmtTwo stats.max,
   optFmtTwo stats.avg]
  ++ bucketNames.map (fun b => toString (stats.latency_buckets b))

/-- `save_results_csv`: write the header exactly when the destination does
not yet exist, then append one data row (the source opens the file in
append mode). -/
def save_results_csv (stats : PingStats) (file : Option (List (List String))) :
    List (List String) :=
  match file with
  | none => [csvHeader, csvRow stats]
  | some rows => rows ++ [csvRow stats]

/-! ## Session engine state machine (`run_ping`) -/

/-- The mutable state of `run_ping`: the session stats and sample list
(shared, lock-guarded), the interval sample list and interval `sent`
counter (loop-local), and the destination file (Encoding A view). -/
structure EngineState where
  stats : PingStats
  times : List ℚ
  intervalTimes : List ℚ
  intervalSent : ℕ
  file : Option (List PingStats)

/-- The engine state at the start of `run_ping`'s loop: fresh session
stats for the resolved target, empty sample lists, interval counter 0. -/
def initState (ip now : String) (file : Option (List PingStats)) : EngineState :=
  { stats := PingStats.new ip now
    times := []
    intervalTimes := []
    intervalSent := 0
    file := file }

/-- One loop iteration's inputs: the probe outcome (`some latency` on a
reply, `none` on timeout/error), whether the auto-save timer has elapsed
(wall-clock time, supplied as an oracle), and the current wall-clock
timestamp string. -/
structure TickInput where
  outcome : Option ℚ
  doFlush : Bool
  now : String

/-- First step of an iteration: increment `sent` for both the session and
the current interval. -/
def tickInc (s : EngineState) : EngineState :=
  { s with
      stats := { s.stats with sent := s.stats.sent + 1 }
      intervalSent := s.intervalSent + 1 }

/-- Second step: on a reply, record the latency in both the session and
the interval sample lists; on timeout/error record nothing. -/
def tickOutcome (out : Option ℚ) (s : EngineState) : EngineState :=
  match out with
  | some ms =>
      { s with
          times := s.times ++ [ms]
          intervalTimes := s.intervalTimes ++ [ms] }
  | none => s

/-- The auto-save block: build a fresh stats object with the interval's
`sent` counter, recompute it from the interval sample list, persist it,
then reset the interval sample list and interval `sent`. -/
def autoSave (ip now : String) (s : EngineState) : EngineState :=
  let iStat := calculate { PingStats.new ip now with sent := s.intervalSent }
    now s.intervalTimes
  { s with
      file := some (save_results iStat s.file)
      intervalTimes := []
      intervalSent := 0 }

/-- Third step: run the auto-save block when the timer elapsed. -/
def tickFlush (ip : String) (i : TickInput) (s : EngineState) : EngineState :=
  if i.doFlush then autoSave ip i.now s else s

/-- One full iteration of the probe loop. -/
def tick (ip : String) (i : TickInput) (s : EngineState) : EngineState :=
  tickFlush ip i (tickOutcome i.outcome (tickInc s))

/-- The probe loop: one `tick` per input. -/
def run (ip : String) (inputs : List TickInput) (s : EngineState) : EngineState :=
  inputs.foldl (fun st i => tick ip i st) s

/-- The state after the first `k` sub-steps of one iteration (k = 0:
before the iteration; 1: after the `sent` increments; 2: after the probe
outcome is recorded; ≥ 3: after the whole iteration).  The asynchronous
interrupt handler can observe any of these intermediate states. -/
def subTick (ip : String) (i : TickInput) (k : ℕ) (s : EngineState) : EngineState :=
  match k with
  | 0 => s
  | 1 => tickInc s
  | 2 => tickOutcome i.outcome (tickInc s)
  | _ => tick ip i s

/-- The Ctrl+C handler of `run_ping`: lock the session stats and sample
list, recompute the session stats from all samples recorded so far,
persist the snapshot once, then exit (so no further appends follow). -/
def ctrlcHandler (now : String) (s : EngineState) : EngineState :=
  let stats2 := calculate s.stats now s.times
  { s with stats := stats2, file := some (save_results stats2 s.file) }

/-- The finalization block reached when a bounded count completes
normally: recompute the session stats one last time and, exactly when at
least one probe was sent, persist and display the snapshot.  The returned
flag records whether the snapshot was persisted and displayed. -/
def finalStep (now : String) (s : EngineState) : EngineState × Bool :=
  let stats2 := calculate s.stats now s.times
  if 0 < stats2.sent then
    ({ s with stats := stats2, file := some (save_results stats2 s.file) }, true)
  else
    ({ s with stats := stats2 }, false)

/-- The session/interval length-vs-sent invariant that makes the `u64`
subtraction in `calculate` safe. -/
def EngineInv (s : EngineState) : Prop :=
  s.times.length ≤ s.stats.sent ∧ s.intervalTimes.length ≤ s.intervalSent

/-! ## Engine invariant lemmas -/

theorem engineInv_init (ip now : String) (file : Option (List PingStats)) :
    EngineInv (initState ip now file) := by
  constructor <;> simp [initState, PingStats.new]

theorem engineInv_tickInc {s : EngineState} (h : EngineInv s) :
    EngineInv (tickInc s) := by
  obtain ⟨h1, h2⟩ := h
  constructor <;> simp [tickInc] <;> omega

theorem engineInv_mid {s : EngineState} (out : Option ℚ) (h : EngineInv s) :
    EngineInv (tickOutcome out (tickInc s)) := by
  obtain ⟨h1, h2⟩ := h
  cases out with
  | none => exact engineInv_tickInc ⟨h1, h2⟩
  | some ms => constructor <;> simp [tickOutcome, tickInc] <;> omega

theorem engineInv_autoSave {s : EngineState} (ip now : String) (h : EngineInv s) :
    EngineInv (autoSave ip now s) := by
  exact ⟨h.1, by simp [autoSave]⟩

theorem engineInv_tick {s : EngineState} (ip : String) (i : TickInput)
    (h : EngineInv s) : EngineInv (tick ip i s) := by
  unfold tick tickFlush
  by_cases hf : i.doFlush
  · rw [if_pos hf]
    exact engineInv_autoSave ip i.now (engineInv_mid i.outcome h)
  · rw [if_neg hf]
    exact engineInv_mid i.outcome h

theorem engineInv_run {s : EngineState} (ip : String) (inputs : List TickInput)
    (h : EngineInv s) : EngineInv (run ip inputs s) := by
  induction inputs generalizing s with
  | nil => exact h
  | cons i is ih =>
      exact ih (engineInv_tick ip i h)

theorem engineInv_subTick {s : EngineState} (ip : String) (i : TickInput) (k : ℕ)
    (h : EngineInv s) : EngineInv (subTick ip i k s) := by
  match k with
  | 0 => exact h
  | 1 => exact engineInv_tickInc h
  | 2 => exact engineInv_mid i.outcome h
  | (n + 3) => exact engineInv_tick ip i h

/-! ## Claim theorems (second batch) -/

/-- C7: the auto-save flush-and-reset step empties the interval sample
list and zeroes the interval `sent` counter, while the overall session
stats (in particular its `sent` counter) and the session sample list are
unchanged; the interval snapshot is appended to the destination. -/
theorem C7_interval_reset (ip now : String) (s : EngineState) :
    (autoSave ip now s).intervalTimes = [] ∧
    (autoSave ip now s).intervalSent = 0 ∧
    (autoSave ip now s).stats.sent = s.stats.sent ∧
    (autoSave ip now s).stats = s.stats ∧
    (autoSave ip now s).times = s.times :=
  ⟨rfl, rfl, rfl, rfl, rfl⟩

/-- C9: finalization recomputes the overall session stats one last time,
and persists (and displays) the snapshot exactly when at least one probe
was sent; with `sent = 0` the destination is untouched. -/
theorem C9_finalize (now : String) (s : EngineState) :
    ((finalStep now s).2 = true ↔ 0 < s.stats.sent) ∧
    ((finalStep now s).1).stats = calculate s.stats now s.times ∧
    ((finalStep now s).1).file =
      (if 0 < s.stats.sent
       then some (save_results (calculate s.stats now s.times) s.file)
       else s.file) := by
  have hsent : (calculate s.stats now s.times).sent = s.stats.sent := rfl
  unfold finalStep
  by_cases h : 0 < s.stats.sent
  · rw [if_pos (hsent ▸ h), if_pos h]
    exact ⟨by simp [h], rfl, rfl⟩
  · rw [if_neg (hsent ▸ h), if_neg h]
    exact ⟨by simp [h], rfl, rfl⟩

/-- C10: from the initial engine state, after any number of complete loop
iterations and at any intermediate point of a next iteration — the states
an asynchronous interrupt can observe, and the states at which the
auto-save and finalization blocks call `calculate` — the session sample
list is no longer than the session `sent` counter and the interval sample
list is no longer than the interval `sent` counter, so the `u64`
subtraction `sent - received` inside `calculate` never underflows. -/
theorem C10_no_underflow (ip now : String) (file : Option (List PingStats))
    (inputs : List TickInput) (i : TickInput) (k : ℕ) :
    ¬ calcUnderflows
        (subTick ip i k (run ip inputs (initState ip now file))).stats.sent
        (subTick ip i k (run ip inputs (initState ip now file))).times ∧
    ¬ calcUnderflows
        (subTick ip i k (run ip inputs (initState ip now file))).intervalSent
        (subTick ip i k (run ip inputs (initState ip now file))).intervalTimes := by
  have hinv : EngineInv (subTick ip i k (run ip inputs (initState ip now file))) :=
    engineInv_subTick ip i k (engineInv_run ip inputs (engineInv_init ip now file))
  obtain ⟨h1, h2⟩ := hinv
  exact ⟨by unfold calcUnderflows; omega, by unfold calcUnderflows; omega⟩

/-! ## The interrupt scenario of the spec (3 sent, latencies 10.5 and 12.25) -/

/-- Engine state of the interrupt scenario: 3 probes sent, replies
10.5 ms and 12.25 ms recorded, arbitrary destination contents. -/
def interruptState (file : Option (List PingStats)) : EngineState :=
  { stats := { PingStats.new "host" "t0" with sent := 3 }
    times := [21/2, 49/4]
    intervalTimes := [21/2, 49/4]
    intervalSent := 3
    file := file }

/-- C1 counterexample: in the interrupt scenario the persisted snapshot's
`avg` is 11.38 — the code rounds the mean 11.375 to two decimals with
`(x * 100.0).round() / 100.0`, and `f32::round` takes 1137.5 to 1138 —
so it is not 11.375 as the claim states. -/
theorem C1_counterexample :
    ((ctrlcHandler "t1" (interruptState none)).stats).avg = some (569/50) ∧
    ((569 : ℚ)/50) ≠ 11375/1000 := by
  constructor
  · show (calculate (interruptState none).stats "t1" (interruptState none).times).avg = _
    simp [interruptState, calculate, roundTwo, roundAway]
    norm_num [Int.floor_eq_iff]
  · norm_num

/-- C1 (amended): in the interrupt scenario the cancellation handler
computes and persists exactly one snapshot with `sent = 3`,
`received = 2`, `loss_percent` exactly 100/3 (≈ 33.3), `min = 10.5`,
`max = 12.25`, and `avg = 11.38` (the mean 11.375 rounded to two decimals
by the code); the destination receives exactly that one appended snapshot
and, the handler ending in process exit, no further snapshot is appended
afterward. -/
theorem C1_interrupt_snapshot (file : Option (List PingStats)) :
    ((ctrlcHandler "t1" (interruptState file)).stats).sent = 3 ∧
    ((ctrlcHandler "t1" (interruptState file)).stats).received = 2 ∧
    ((ctrlcHandler "t1" (interruptState file)).stats).loss_percent = 100/3 ∧
    |((ctrlcHandler "t1" (interruptState file)).stats).loss_percent - 333/10| < 1/10 ∧
    ((ctrlcHandler "t1" (interruptState file)).stats).min = some (21/2) ∧
    ((ctrlcHandler "t1" (interruptState file)).stats).max = some (49/4) ∧
    ((ctrlcHandler "t1" (interruptState file)).stats).avg = some (569/50) ∧
    (ctrlcHandler "t1" (interruptState file)).file
      = some (save_results ((ctrlcHandler "t1" (interruptState file)).stats) file) := by
  have hloss : ((ctrlcHandler "t1" (interruptState file)).stats).loss_percent = 100/3 := by
    show (calculate (interruptState file).stats "t1" (interruptState file).times).loss_percent = _
    simp [interruptState, calculate]
  refine ⟨rfl, rfl, hloss, ?_, ?_, ?_, ?_, rfl⟩
  · rw [hloss, abs_lt]
    constructor <;> norm_num
  · show (calculate (interruptState file).stats "t1" (interruptState file).times).min = _
    simp [interruptState, calculate, roundTwo, roundAway, min_def, f32MAX]
    norm_num [Int.floor_eq_iff]
  · show (calculate (interruptState file).stats "t1" (interruptState file).times).max = _
    simp [interruptState, calculate, roundTwo, roundAway, max_def, f32MIN]
    norm_num [Int.floor_eq_iff]
  · show (calculate (interruptState file).stats "t1" (interruptState file).times).avg = _
    simp [interruptState, calculate, roundTwo, roundAway]
    norm_num [Int.floor_eq_iff]

/-- C8 counterexample: the `sent` column of a CSV data row is rendered
with `u64::to_string` — for `sent = 3` the field is `"3"`, not the
two-decimal rendering `"3.00"`, so not every numeric field uses
two-decimal fixed precision. -/
theorem C8_counterexample :
    (csvRow { PingStats.new "1.2.3.4" "t0" with sent := 3 })[2]? = some "3" ∧
    fmtTwo ((3 : ℕ) : ℚ) = "3.00" ∧ ("3" : String) ≠ "3.00" := by
  refine ⟨rfl, ?_, by decide⟩
  simp [fmtTwo]
  norm_num
  rfl

/-- C8 (amended): the CSV (Encoding B) writer emits the fixed column
header (target, timestamp, sent, received, loss_percent, min, max, avg,
then one column per histogram bucket in declared order) exactly when the
destination does not yet exist, and every write appends one row; in the
row, the fractional fields — `loss_percent` and present `min`/`max`/`avg`
— use two-decimal fixed precision, absent `min`/`max`/`avg` render as an
empty field, and the integer fields (`sent`, `received`, bucket counts)
render as plain integers. -/
theorem C8_csv_encoding (stats : PingStats) (rows : List (List String)) :
    save_results_csv stats none = [csvHeader, csvRow stats] ∧
    save_results_csv stats (some rows) = rows ++ [csvRow stats] ∧
    csvHeader = ["target", "timestamp", "sent", "received", "loss_percent",
      "min", "max", "avg"] ++ bucketNames ∧
    (csvRow stats)[2]? = some (toString stats.sent) ∧
    (csvRow stats)[3]? = some (toString stats.received) ∧
    (csvRow stats)[4]? = some (fmtTwo stats.loss_percent) ∧
    (csvRow stats)[5]? = some (optFmtTwo stats.min) ∧
    (csvRow stats)[6]? = some (optFmtTwo stats.max) ∧
    (csvRow stats)[7]? = some (optFmtTwo stats.avg) ∧
    optFmtTwo none = "" ∧
    (∀ v, optFmtTwo (some v) = fmtTwo v) ∧
    (csvRow stats).drop 8 = bucketNames.map (fun b => toString (stats.latency_buckets b)) ∧
    (csvRow stats).length = csvHeader.length :=
  ⟨rfl, rfl, rfl, rfl, rfl, rfl, rfl, rfl, rfl, rfl, fun v => rfl, rfl, rfl⟩
